import Mathlib

/-!
# StructuraML interpreter: verification of the directive/expression engine

Shallow embedding of `src/design/python_interpretation.py`
(`StructuralMLInterpreter`).  The interpreter state (`self.variables`,
`self.output_buffer`, plus everything the code `print`s, kept as a
diagnostics list) is threaded explicitly; Python exceptions become an
explicit error value that carries the state at the raise site, since the
mutations made before an exception persist in the Python object.

The code evaluates expressions with the host `eval(expr, {"__builtins__":
None}, self.variables)`.  That call is embedded by `pyParse`/`pyEval`,
which model CPython's parsing and evaluation on the fragment of Python
expressions this development exercises: int and double-quoted string
literals, the keywords `True`/`False`/`None`, list literals, names resolved
in the variables dict, indexing, `==`/`!=`/`<`/`<=`/`>`/`>=`, `+`, and
zero-argument method calls such as `"a".upper()` (attribute access on host
objects is exactly what `{"__builtins__": None}` does not block).  Strings
outside the fragment are mapped to a syntax error; every theorem below
applies the evaluator only to texts on which this agrees with CPython.

Python recursion (nested blocks, `@include`) is modelled with a fuel
parameter; exhausted fuel plays the role of `RecursionError`, which the
code's `except Exception` handlers can catch like any other exception.
-/

namespace StructuraML

/-! ## Value model: Python values reachable by the embedded scripts -/

mutual

/-- A Python value as stored in `self.variables`: `None`, `bool`, `int`,
`str`, `list`, `dict`.  (Floats are outside the modelled fragment.) -/
inductive Value where
  | null : Value
  | bool (b : Bool) : Value
  | int (n : Int) : Value
  | str (s : String) : Value
  | list (xs : ValueList) : Value
  | dict (ps : ValuePairs) : Value

/-- A list of values (kept as its own inductive so that recursion over
nested values stays structural). -/
inductive ValueList where
  | nil : ValueList
  | cons (v : Value) (t : ValueList) : ValueList

/-- Key/value pairs of a dict, in insertion order. -/
inductive ValuePairs where
  | nil : ValuePairs
  | cons (k v : Value) (t : ValuePairs) : ValuePairs

end

namespace ValueList

/-- Convert to an ordinary list. -/
def toList : ValueList → List Value
  | .nil => []
  | .cons v t => v :: toList t

/-- Build from an ordinary list. -/
def ofList : List Value → ValueList
  | [] => .nil
  | v :: t => .cons v (ofList t)

end ValueList

namespace ValuePairs

/-- The keys of a dict, in order — what `for item in d` iterates. -/
def keys : ValuePairs → List Value
  | .nil => []
  | .cons k _ t => k :: keys t

end ValuePairs

mutual

/-- Python `str()` of a value (elements of containers use `repr`). -/
def pyStr : Value → String
  | .null => "None"
  | .bool b => if b then "True" else "False"
  | .int n => toString n
  | .str s => s
  | .list xs => "[" ++ pyStrList xs ++ "]"
  | .dict ps => "\x7b" ++ pyStrPairs ps ++ "\x7d"

/-- Python `repr()` of a value (string elements get quotes). -/
def pyRepr : Value → String
  | .str s => "'" ++ s ++ "'"
  | v => match v with
    | .list xs => "[" ++ pyStrList xs ++ "]"
    | .dict ps => "\x7b" ++ pyStrPairs ps ++ "\x7d"
    | .null => "None"
    | .bool b => if b then "True" else "False"
    | .int n => toString n
    | .str s => "'" ++ s ++ "'"

/-- Comma-separated `repr`s of list elements. -/
def pyStrList : ValueList → String
  | .nil => ""
  | .cons v .nil => pyRepr v
  | .cons v t => pyRepr v ++ ", " ++ pyStrList t

/-- Comma-separated `repr(k): repr(v)` of dict entries. -/
def pyStrPairs : ValuePairs → String
  | .nil => ""
  | .cons k v .nil => pyRepr k ++ ": " ++ pyRepr v
  | .cons k v t => pyRepr k ++ ": " ++ pyRepr v ++ ", " ++ pyStrPairs t

end

/-- Python truthiness, as used by `if self._evaluate_condition(...)`. -/
def truthy : Value → Bool
  | .null => false
  | .bool b => b
  | .int n => n != 0
  | .str s => s ≠ ""
  | .list .nil => false
  | .list _ => true
  | .dict .nil => false
  | .dict _ => true

/-- The text CPython's `type()` prints for a value, as interpolated into the
`@foreach` wrong-category diagnostic. -/
def typeName : Value → String
  | .null => "<class 'NoneType'>"
  | .bool _ => "<class 'bool'>"
  | .int _ => "<class 'int'>"
  | .str _ => "<class 'str'>"
  | .list _ => "<class 'list'>"
  | .dict _ => "<class 'dict'>"

/-- A value as a Python number when numeric (`bool` counts as 0/1). -/
def asNum : Value → Option Int
  | .int n => some n
  | .bool b => some (if b then 1 else 0)
  | _ => none

mutual

/-- Python `==` on the modelled values (numeric cross-type equality between
`bool` and `int` included; `dict` equality is compared entry-wise in order,
which agrees with CPython on the dicts this development builds). -/
def pyEq : Value → Value → Bool
  | .null, .null => true
  | .str a, .str b => a == b
  | .list a, .list b => pyEqList a b
  | .dict a, .dict b => pyEqPairs a b
  | a, b =>
    match asNum a, asNum b with
    | some x, some y => x == y
    | _, _ => false

/-- Element-wise Python `==` on lists. -/
def pyEqList : ValueList → ValueList → Bool
  | .nil, .nil => true
  | .cons a ta, .cons b tb => pyEq a b && pyEqList ta tb
  | _, _ => false

/-- Entry-wise Python `==` on dicts. -/
def pyEqPairs : ValuePairs → ValuePairs → Bool
  | .nil, .nil => true
  | .cons ka va ta, .cons kb vb tb => pyEq ka kb && pyEq va vb && pyEqPairs ta tb
  | _, _ => false

end

/-! ## Typed evaluation errors (the exceptions `eval` can raise) -/

/-- The Python exception classes that matter to the interpreter's `except`
clauses.  `@set` catches exactly the first four; everything else
propagates. -/
inductive EvalError where
  | nameError (n : String) : EvalError
  | syntaxError : EvalError
  | typeError : EvalError
  | indexError : EvalError
  | keyError : EvalError
  | attributeError : EvalError
deriving DecidableEq

/-- The rendering of an exception used in the code's diagnostic strings. -/
def errText : EvalError → String
  | .nameError n => "name '" ++ n ++ "' is not defined"
  | .syntaxError => "invalid syntax"
  | .typeError => "unsupported operand type(s)"
  | .indexError => "index out of range"
  | .keyError => "KeyError"
  | .attributeError => "AttributeError"

/-- Is this one of the four exception classes the `@set` handler catches
(`NameError, SyntaxError, TypeError, IndexError`)? -/
def caughtBySet : EvalError → Bool
  | .nameError _ => true
  | .syntaxError => true
  | .typeError => true
  | .indexError => true
  | _ => false

/-! ## The variables dict -/

/-- The flat `self.variables` dict: name/value pairs in insertion order. -/
abbrev Vars := List (String × Value)

/-- Dict lookup. -/
def varGet (k : String) : Vars → Option Value
  | [] => none
  | (k', v) :: t => if k' = k then some v else varGet k t

/-- Dict update: an existing key keeps its position, a new key is appended
(CPython dict semantics). -/
def varSet (k : String) (v : Value) : Vars → Vars
  | [] => [(k, v)]
  | (k', v') :: t => if k' = k then (k, v) :: t else (k', v') :: varSet k v t

/-! ## Kernel-computable string helpers -/

/-- Does `cs` start with the characters of `needle`? -/
def listStartsWith : List Char → List Char → Bool
  | _, [] => true
  | [], _ :: _ => false
  | c :: r, d :: s => c = d && listStartsWith r s

/-- `str.startswith`, computed on the character lists (the core
byte-position implementation does not reduce in the kernel). -/
def strStartsWith (s p : String) : Bool := listStartsWith s.data p.data

/-- `str.endswith`, on the character lists. -/
def strEndsWith (s p : String) : Bool :=
  listStartsWith s.data.reverse p.data.reverse

/-- Python `str.strip()`: drop whitespace from both ends. -/
def pyStrip (s : String) : String :=
  String.mk (((s.data.dropWhile Char.isWhitespace).reverse.dropWhile
    Char.isWhitespace).reverse)

/-- `str.upper` on the ASCII fragment. -/
def strUpper (s : String) : String := String.mk (s.data.map Char.toUpper)

/-! ## The expression grammar reached through `eval` -/

/-- Comparison operators of the fragment. -/
inductive CmpKind where
  | ceq | cne | clt | cle | cgt | cge
deriving DecidableEq

mutual

/-- Parse tree of a Python expression in the modelled fragment.
`methodCall` is a zero-argument attribute invocation (`e.m()`) — legal for
`eval` even with `{"__builtins__": None}`, since attribute access on host
objects is not blocked. -/
inductive PyExpr where
  | intLit (n : Int) : PyExpr
  | strLit (s : String) : PyExpr
  | boolLit (b : Bool) : PyExpr
  | noneLit : PyExpr
  | nameRef (n : String) : PyExpr
  | listLit (es : PyExprList) : PyExpr
  | indexOp (a b : PyExpr) : PyExpr
  | methodCall (a : PyExpr) (m : String) : PyExpr
  | cmpOp (op : CmpKind) (l r : PyExpr) : PyExpr
  | addOp (l r : PyExpr) : PyExpr

/-- A list of expressions (elements of a list literal). -/
inductive PyExprList where
  | nil : PyExprList
  | cons (e : PyExpr) (t : PyExprList) : PyExprList

end

/-- Python list concatenation for `+`. -/
def vlAppend : ValueList → ValueList → ValueList
  | .nil, b => b
  | .cons v t, b => .cons v (vlAppend t b)

/-- Length of a value list. -/
def vlLength : ValueList → Nat
  | .nil => 0
  | .cons _ t => vlLength t + 1

/-- Zero-based get on a value list. -/
def vlGet : ValueList → Nat → Option Value
  | .nil, _ => none
  | .cons v _, 0 => some v
  | .cons _ t, n + 1 => vlGet t n

/-- Dict lookup by Python equality of keys, as `d[k]` does. -/
def pairsGet (k : Value) : ValuePairs → Option Value
  | .nil => none
  | .cons k' v t => if pyEq k' k then some v else pairsGet k t

/-- Python indexing `a[b]` on the fragment: lists and strings take ints
(negative indices count from the end), dicts take keys. -/
def pyIndex (a b : Value) : Except EvalError Value :=
  match a with
  | .list xs =>
    match asNum b with
    | some i =>
      let n : Int := Int.ofNat (vlLength xs)
      let j : Int := if i < 0 then i + n else i
      if 0 ≤ j ∧ j < n then
        match vlGet xs j.toNat with
        | some v => .ok v
        | none => .error .indexError
      else .error .indexError
    | none => .error .typeError
  | .str s =>
    match asNum b with
    | some i =>
      let n : Int := Int.ofNat s.data.length
      let j : Int := if i < 0 then i + n else i
      if 0 ≤ j ∧ j < n then
        match s.data.get? j.toNat with
        | some c => .ok (.str c.toString)
        | none => .error .indexError
      else .error .indexError
    | none => .error .typeError
  | .dict ps =>
    match pairsGet b ps with
    | some v => .ok v
    | none => .error .keyError
  | _ => .error .typeError

/-- Python `+` on the fragment: numbers, strings, lists. -/
def pyAdd (a b : Value) : Except EvalError Value :=
  match a, b with
  | .str x, .str y => .ok (.str (x ++ y))
  | .list x, .list y => .ok (.list (vlAppend x y))
  | a, b =>
    match asNum a, asNum b with
    | some x, some y => .ok (.int (x + y))
    | _, _ => .error .typeError

/-- Python ordering comparisons on the fragment: numbers with numbers,
strings with strings; anything else is a `TypeError`. -/
def pyCmp (op : CmpKind) (a b : Value) : Except EvalError Value :=
  match op with
  | .ceq => .ok (.bool (pyEq a b))
  | .cne => .ok (.bool (!pyEq a b))
  | _ =>
    match a, b with
    | .str x, .str y =>
      .ok (.bool (match op with
        | .clt => x < y
        | .cle => x < y || x == y
        | .cgt => y < x
        | .cge => y < x || x == y
        | _ => false))
    | a, b =>
      match asNum a, asNum b with
      | some x, some y =>
        .ok (.bool (match op with
          | .clt => x < y
          | .cle => x ≤ y
          | .cgt => y < x
          | .cge => y ≤ x
          | _ => false))
      | _, _ => .error .typeError

mutual

/-- Evaluate a parsed expression against the variables dict — the semantics
of the code's `eval(expr, {"__builtins__": None}, self.variables)` on the
fragment.  Missing names are `NameError` (the empty `__builtins__` offers
no fallback).  `methodCall` executes the host `str.upper` built-in when the
receiver is a string; any other receiver or method name raises
`AttributeError`. -/
def pyEval (vars : Vars) : PyExpr → Except EvalError Value
  | .intLit n => .ok (.int n)
  | .strLit s => .ok (.str s)
  | .boolLit b => .ok (.bool b)
  | .noneLit => .ok .null
  | .nameRef n =>
    match varGet n vars with
    | some v => .ok v
    | none => .error (.nameError n)
  | .listLit es =>
    match pyEvalList vars es with
    | .ok xs => .ok (.list xs)
    | .error e => .error e
  | .indexOp a b =>
    match pyEval vars a with
    | .error e => .error e
    | .ok va =>
      match pyEval vars b with
      | .error e => .error e
      | .ok vb => pyIndex va vb
  | .methodCall a m =>
    match pyEval vars a with
    | .error e => .error e
    | .ok va =>
      match va with
      | .str s => if m = "upper" then .ok (.str (strUpper s)) else .error .attributeError
      | _ => .error .attributeError
  | .cmpOp op l r =>
    match pyEval vars l with
    | .error e => .error e
    | .ok vl =>
      match pyEval vars r with
      | .error e => .error e
      | .ok vr => pyCmp op vl vr
  | .addOp l r =>
    match pyEval vars l with
    | .error e => .error e
    | .ok vl =>
      match pyEval vars r with
      | .error e => .error e
      | .ok vr => pyAdd vl vr

/-- Evaluate the elements of a list literal, left to right. -/
def pyEvalList (vars : Vars) : PyExprList → Except EvalError ValueList
  | .nil => .ok .nil
  | .cons e t =>
    match pyEval vars e with
    | .error err => .error err
    | .ok v =>
      match pyEvalList vars t with
      | .error err => .error err
      | .ok vs => .ok (.cons v vs)

end

/-! ## Parsing the expression text (what CPython's `eval` parses) -/

/-- A character of a Python identifier (`\w` on the ASCII fragment). -/
def isWordChar (c : Char) : Bool := c.isAlphanum || c = '_'

/-- Drop leading whitespace. -/
def skipWs (cs : List Char) : List Char := cs.dropWhile Char.isWhitespace

/-- Python keywords that head constructs outside the modelled expression
fragment; a text using them is not given semantics here. -/
def outsideFragmentWord (w : String) : Bool :=
  w = "and" || w = "or" || w = "not" || w = "in" || w = "is" ||
  w = "if" || w = "else" || w = "lambda" || w = "for"

/-- Read a comparison operator token. -/
def parseCmpTok : List Char → Option (CmpKind × List Char)
  | '=' :: '=' :: r => some (.ceq, r)
  | '!' :: '=' :: r => some (.cne, r)
  | '<' :: '=' :: r => some (.cle, r)
  | '>' :: '=' :: r => some (.cge, r)
  | '<' :: r => some (.clt, r)
  | '>' :: r => some (.cgt, r)
  | _ => none

/-- Digits of a nonempty decimal numeral, as a `Nat`. -/
def digitsToNat (ds : List Char) : Nat :=
  ds.foldl (fun a c => a * 10 + (c.toNat - '0'.toNat)) 0

/-- Parse the elements after an opening `[`, including the closing `]`
(trailing comma accepted, as in Python).  `pE` parses one element. -/
def parseElemsF (pE : List Char → Option (PyExpr × List Char)) :
    Nat → List Char → Option (PyExprList × List Char)
  | 0, _ => none
  | fuel + 1, cs =>
    match skipWs cs with
    | ']' :: rest => some (.nil, rest)
    | cs' =>
      match pE cs' with
      | none => none
      | some (e, rest) =>
        match skipWs rest with
        | ',' :: r2 =>
          match parseElemsF pE fuel r2 with
          | some (t, r3) => some (.cons e t, r3)
          | none => none
        | ']' :: r2 => some (.cons e .nil, r2)
        | _ => none

/-- Parse postfix operators: `[expr]` indexing and zero-argument method
calls `.name()` (written without inner spaces in the fragment). -/
def parsePostF (pE : List Char → Option (PyExpr × List Char)) :
    Nat → PyExpr → List Char → Option (PyExpr × List Char)
  | 0, _, _ => none
  | fuel + 1, a, cs =>
    match cs with
    | '.' :: rest =>
      let w := rest.takeWhile isWordChar
      if w = [] then none
      else
        match rest.dropWhile isWordChar with
        | '(' :: ')' :: r2 => parsePostF pE fuel (.methodCall a (String.mk w)) r2
        | _ => none
    | '[' :: rest =>
      match pE (skipWs rest) with
      | none => none
      | some (b, r2) =>
        match skipWs r2 with
        | ']' :: r3 => parsePostF pE fuel (.indexOp a b) r3
        | _ => none
    | _ => some (a, cs)

/-- Parse a chain of `+` (left associative).  `pTerm` parses one operand. -/
def parseAddF (pTerm : List Char → Option (PyExpr × List Char)) :
    Nat → PyExpr → List Char → Option (PyExpr × List Char)
  | 0, _, _ => none
  | fuel + 1, acc, cs =>
    match skipWs cs with
    | '+' :: rest =>
      match pTerm (skipWs rest) with
      | some (r, r2) => parseAddF pTerm fuel (.addOp acc r) r2
      | none => none
    | _ => some (acc, cs)

/-- Parse an atom: int literal, double-quoted string literal (no escapes in
the fragment), list literal, `True`/`False`/`None`, or a name. -/
def parseAtomF (pE : List Char → Option (PyExpr × List Char))
    (cs : List Char) : Option (PyExpr × List Char) :=
  match skipWs cs with
  | [] => none
  | c :: rest =>
    if c.isDigit then
      let ds := (c :: rest).takeWhile Char.isDigit
      some (.intLit (Int.ofNat (digitsToNat ds)), (c :: rest).dropWhile Char.isDigit)
    else if c = '"' then
      let body := rest.takeWhile (fun d => d ≠ '"')
      match rest.dropWhile (fun d => d ≠ '"') with
      | '"' :: r2 => some (.strLit (String.mk body), r2)
      | _ => none
    else if c = '[' then
      parseElemsF pE (rest.length + 1) rest |>.map (fun (es, r) => (.listLit es, r))
    else if c.isAlpha || c = '_' then
      let w := String.mk ((c :: rest).takeWhile isWordChar)
      let r2 := (c :: rest).dropWhile isWordChar
      if w = "True" then some (.boolLit true, r2)
      else if w = "False" then some (.boolLit false, r2)
      else if w = "None" then some (.noneLit, r2)
      else if outsideFragmentWord w then none
      else some (.nameRef w, r2)
    else none

/-- Parse one expression of the fragment: a comparison over additive
chains over postfix-decorated atoms.  The fuel bounds nesting depth and is
ample at `length + 2` for every in-fragment text. -/
def parseExpr : Nat → List Char → Option (PyExpr × List Char)
  | 0, _ => none
  | fuel + 1, cs =>
    let pE := parseExpr fuel
    let post := fun ds =>
      match parseAtomF pE ds with
      | some (a, r) => parsePostF pE (r.length + 1) a r
      | none => none
    let add := fun ds =>
      match post ds with
      | some (a, r) => parseAddF post (r.length + 1) a r
      | none => none
    match add cs with
    | none => none
    | some (l, rest) =>
      match parseCmpTok (skipWs rest) with
      | some (op, r2) =>
        match add (skipWs r2) with
        | some (r, r3) => some (.cmpOp op l r, r3)
        | none => none
      | none => some (l, rest)

/-- The parse CPython's `eval` gives to an expression text of the
fragment; `none` stands for `SyntaxError` on the texts this development
evaluates (each is checked against CPython's actual grammar). -/
def pyParse (s : String) : Option PyExpr :=
  match parseExpr (s.data.length + 2) s.data with
  | some (e, rest) => if skipWs rest = [] then some e else none
  | none => none

/-- The code's `eval(value_expression, {"__builtins__": None},
self.variables)`: parse, then evaluate against the variables dict. -/
def pyEvalStr (s : String) (vars : Vars) : Except EvalError Value :=
  match pyParse s with
  | none => .error .syntaxError
  | some e => pyEval vars e

/-! ## Interpolation (`_interpolate_variables`) -/

/-- The `{` character (written by code so that no brace appears in a
source literal). -/
def lbrace : Char := Char.ofNat 123

/-- The `}` character. -/
def rbrace : Char := Char.ofNat 125

/-- The replacement for one captured `{...}` span: `str()` of the
evaluated expression, or the code's placeholder
`{UNDEFINED_OR_INVALID_VAR:expr}` when evaluation raises. -/
def spanRepl (vars : Vars) (span : List Char) : String :=
  match pyEvalStr (String.mk span) vars with
  | .ok v => pyStr v
  | .error _ => "\x7bUNDEFINED_OR_INVALID_VAR:" ++ String.mk span ++ "\x7d"

/-- One pass of `re.sub(r'\{([^{}]+)\}', replace_match, text)`: scan left
to right; a span is an opening brace, one or more non-brace characters,
and a closing brace; replaced spans are not rescanned.  The second
argument holds the candidate span being read (in reverse), `none` when
outside a candidate. -/
def interpAux (vars : Vars) : List Char → Option (List Char) → String
  | [], none => ""
  | [], some acc => "\x7b" ++ String.mk acc.reverse
  | c :: rest, none =>
    if c = lbrace then interpAux vars rest (some [])
    else c.toString ++ interpAux vars rest none
  | c :: rest, some acc =>
    if c = rbrace then
      if acc = [] then "\x7b\x7d" ++ interpAux vars rest none
      else spanRepl vars acc.reverse ++ interpAux vars rest none
    else if c = lbrace then
      "\x7b" ++ String.mk acc.reverse ++ interpAux vars rest (some [])
    else interpAux vars rest (some (c :: acc))

/-- `_interpolate_variables`: replace each `{expr}` span of the text by its
evaluated `str()` (or the placeholder on failure). -/
def interpolate (s : String) (vars : Vars) : String :=
  interpAux vars s.data none

/-- The diagnostic `_evaluate_condition` prints when evaluation raises. -/
def msgCondErr (cond : String) (e : EvalError) : String :=
  "Error evaluating condition '" ++ cond ++ "': " ++ errText e

/-- `_evaluate_condition`: evaluate and take Python truthiness; any
exception prints an error and yields `False`.  Returned alongside the
diagnostics this emits. -/
def evaluateCondition (cond : String) (vars : Vars) : Bool × List String :=
  match pyEvalStr cond vars with
  | .ok v => (truthy v, [])
  | .error e => (false, [msgCondErr cond e])

/-! ## Interpreter state, errors, environment -/

/-- The mutable interpreter state: `self.variables`, `self.output_buffer`,
and the stream of diagnostics the code `print`s. -/
structure St where
  vars : Vars
  buffer : List String
  diags : List String

/-- A propagating Python exception: exhausted recursion depth
(`RecursionError`, modelled by the fuel) or an evaluation exception not
caught at its raise site. -/
inductive RErr where
  | depthLimit : RErr
  | pyExc (e : EvalError) : RErr
deriving DecidableEq

/-- The exception text used in `except Exception as e: print(f"...: {e}")`
diagnostics. -/
def rerrText : RErr → String
  | .depthLimit => "maximum recursion depth exceeded"
  | .pyExc e => errText e

/-- Result of executing lines: the final state, or a propagating exception
together with the state at the raise site (mutations made before the raise
persist on `self`). -/
abbrev Res := Except (RErr × St) St

/-- The interpreter's surroundings: the readable filesystem (path to
lines), and the external collaborators of spec §4.6 — the completion
provider (prompt text, `max_token`, raw `temperature` text to response)
and the host JSON decoder.  No claim exercises the collaborators. -/
structure Env where
  fs : List (String × List String)
  llm : String → Option Nat → Option String → String
  jsonParse : String → Option Value

/-- Filesystem lookup. -/
def fsGet (p : String) : List (String × List String) → Option (List String)
  | [] => none
  | (q, ls) :: t => if q = p then some ls else fsGet p t

/-- `os.path.join` on the fragment used here: an absolute second argument
wins, otherwise the parts are joined with `/`. -/
def pathJoin (b r : String) : String :=
  if strStartsWith r "/" then r else if b = "" then r else b ++ "/" ++ r

/-- `os.path.dirname` (paths in this development are already absolute, so
`os.path.abspath` is the identity on them). -/
def dirname (p : String) : String :=
  match p.data.reverse.dropWhile (fun c => c ≠ '/') with
  | [] => ""
  | _ :: t => String.mk t.reverse

/-! ## Diagnostic texts printed by the executor -/

/-- `@set` line that the `@set` regex rejects. -/
def msgMalformedSet (il : String) : String :=
  "Error: Malformed @set statement: " ++ il

/-- `@include` line that the `@include` regex rejects. -/
def msgMalformedInclude (il : String) : String :=
  "Error: Malformed @include statement: " ++ il

/-- `@foreach` line that the `@foreach` regex rejects. -/
def msgMalformedForeach (il : String) : String :=
  "Error: Malformed @foreach statement: " ++ il

/-- Include target whose path does not exist. -/
def msgIncludeNotFound (p : String) : String :=
  "Error: Included file '" ++ p ++ "' not found."

/-- Exception escaping from an included file's execution, caught by the
include site's `except Exception`. -/
def msgIncludeProc (p : String) (e : RErr) : String :=
  "Error processing included file '" ++ p ++ "': " ++ rerrText e

/-- `@foreach` collection of the wrong category. -/
def msgForeachNotIterable (expr : String) (v : Value) : String :=
  "Error: Expression '" ++ expr ++ "' does not resolve to an iterable (list, dict, or string) for @foreach. Type: " ++ typeName v

/-- Exception caught by the `@foreach` site's `except Exception` — the
`try` wraps both the collection evaluation and the whole loop, so body
failures are (mis)reported with this message too. -/
def msgForeachEvalErr (expr : String) (e : RErr) : String :=
  "Error evaluating collection expression '" ++ expr ++ "': " ++ rerrText e

/-- `@set` evaluation failure of one of the four caught classes. -/
def msgSetEvalWarn (vexpr vname : String) (e : EvalError) : String :=
  "Warning: Could not evaluate '" ++ vexpr ++ "' for variable '" ++ vname ++
  "'. Storing as string. Error: " ++ errText e

/-- Missing `@prompt` file. -/
def msgPromptFileNotFound (p : String) : String :=
  "Error: Prompt file '" ++ p ++ "' not found."

/-- `@prompt` with neither inline text nor a file reference. -/
def msgPromptNoContent : String := "Warning: @prompt without content or file."

/-- JSON decoding of a completion failed; the raw string is stored. -/
def msgJsonDecodeErr (vname : String) : String :=
  "Error decoding JSON for '" ++ vname ++ "': decode failure. Storing as raw string."

/-! ## Directive-line parsing (the dispatch regexes) -/

/-- First occurrence of `needle` in `cs`: the suffix just after it
(`re.search` for a literal pattern). -/
def subAfter (needle : List Char) : List Char → Option (List Char)
  | [] => if needle = [] then some [] else none
  | c :: rest =>
    if listStartsWith (c :: rest) needle then some ((c :: rest).drop needle.length)
    else subAfter needle rest

/-- `re.match(r'@set (\w+)\s*=\s*(.*)', line)`: the variable name and the
stripped value expression. -/
def parseSet (il : String) : Option (String × String) :=
  if listStartsWith il.data "@set ".data then
    let rest := il.data.drop 5
    let w := rest.takeWhile isWordChar
    if w = [] then none
    else
      match skipWs (rest.dropWhile isWordChar) with
      | '=' :: r4 => some (String.mk w, pyStrip (String.mk (skipWs r4)))
      | _ => none
  else none

/-- `re.match(r'@log\s*(.*)', line)` — this always matches, and the group
is the text after `@log` and any whitespace. -/
def logContent (il : String) : String :=
  String.mk (skipWs (il.data.drop 4))

/-- `re.match(r'@include\s*"([^"]+)"', line)`: the quoted path. -/
def parseInclude (il : String) : Option String :=
  match skipWs (il.data.drop 8) with
  | '"' :: r2 =>
    let w := r2.takeWhile (fun c => c ≠ '"')
    if w = [] then none
    else
      match r2.dropWhile (fun c => c ≠ '"') with
      | '"' :: _ => some (String.mk w)
      | _ => none
  | _ => none

/-- `re.match(r'@foreach (\w+) in (.*)', line)`: the loop variable and the
stripped collection expression. -/
def parseForeach (il : String) : Option (String × String) :=
  if listStartsWith il.data "@foreach ".data then
    let rest := il.data.drop 9
    let w := rest.takeWhile isWordChar
    if w = [] then none
    else
      let r2 := rest.dropWhile isWordChar
      if listStartsWith r2 " in ".data then
        some (String.mk w, pyStrip (String.mk (r2.drop 4)))
      else none
  else none

/-! ## Block matching (`_get_block_lines`) and the false-branch scan -/

/-- The scan of `_get_block_lines` over the lines from `cur` on: collect
until the first line whose stripped text starts with one of the end
directives — no nesting counter — returning the collected block and the
index just after the match (or the end index when none matches). -/
def getBlockAux (ends : List String) : List String → Nat → List String × Nat
  | [], cur => ([], cur)
  | l :: rest, cur =>
    if ends.any (fun d => strStartsWith (pyStrip l) d) then ([], cur + 1)
    else
      let (b, n) := getBlockAux ends rest (cur + 1)
      (l :: b, n)

/-- `_get_block_lines(all_lines, start_index, *end_directives)`. -/
def getBlockLines (all : List String) (start : Nat) (ends : List String) :
    List String × Nat :=
  getBlockAux ends (all.drop start) start

/-- The false-branch scan of `@if`/`@elseif`: the index of the first line
at or after `start` whose stripped text starts with one of the
directives, if any. -/
def skipToAux (ds : List String) : List String → Nat → Option Nat
  | [], _ => none
  | l :: rest, cur =>
    if ds.any (fun d => strStartsWith (pyStrip l) d) then some cur
    else skipToAux ds rest (cur + 1)

/-- Scan forward for the next sibling branch directive. -/
def skipToDirective (all : List String) (start : Nat) (ds : List String) :
    Option Nat :=
  skipToAux ds (all.drop start) start

/-! ## The `@prompt` arm of `@set` (external-collaborator glue) -/

/-- Strip surrounding code-fence markup, modelling
`re.sub(r"```(?:json)?\s*(.*?)\s*```", r"\1", text, flags=re.DOTALL).strip()`
on responses that are either fully fenced or fence-free. -/
def stripFence (s : String) : String :=
  let t := pyStrip s
  if strStartsWith t "```" then
    let t1 := String.mk (t.data.drop 3)
    let t2 := if strStartsWith t1 "json" then String.mk (t1.data.drop 4) else t1
    let t3 := pyStrip t2
    pyStrip (if strEndsWith t3 "```" then
      String.mk (t3.data.take (t3.data.length - 3)) else t3)
  else t

/-- The pieces the `@prompt` regex extracts: optional `file="..."`,
optional inline `"..."`, `max_token=INT`, `temperature=FLOAT` (kept as raw
text), `json_decode=true`. -/
def parsePromptArgs (s : String) :
    Option String × Option String × Option Nat × Option String × Bool :=
  let after := skipWs (s.data.drop 7)
  let (file, r1) :=
    if listStartsWith after "file=\"".data then
      let body := (after.drop 6).takeWhile (fun c => c ≠ '"')
      match (after.drop 6).dropWhile (fun c => c ≠ '"') with
      | '"' :: r => (some (String.mk body), r)
      | _ => (none, after)
    else (none, after)
  let r1' := skipWs r1
  let inline :=
    match r1' with
    | '"' :: r2 =>
      let body := r2.takeWhile (fun c => c ≠ '"')
      match r2.dropWhile (fun c => c ≠ '"') with
      | '"' :: _ => some (String.mk body)
      | _ => none
    | _ => none
  let maxTok :=
    match subAfter "max_token=".data s.data with
    | some r =>
      let ds := r.takeWhile Char.isDigit
      if ds = [] then none else some (digitsToNat ds)
    | none => none
  let temp :=
    match subAfter "temperature=".data s.data with
    | some r =>
      let ds := r.takeWhile (fun c => c.isDigit || c = '.')
      if ds = [] then none else some (String.mk ds)
    | none => none
  let jd := strEndsWith (pyStrip s) "json_decode=true"
  (file, inline, maxTok, temp, jd)

/-- The `@prompt` arm of `@set`: build the final prompt (file reference
takes precedence over inline text), invoke the provider, optionally JSON
decode, and bind the target variable.  This arm never raises. -/
def execPromptSet (env : Env) (baseDir varName valueExpr : String) (st : St) : St :=
  let (file, inline, maxTok, temp, jd) := parsePromptArgs valueExpr
  let (finalPrompt, st1) :=
    match file with
    | some f =>
      let p := pathJoin baseDir f
      match fsGet p env.fs with
      | some content => (interpolate (String.intercalate "\n" content) st.vars, st)
      | none => (msgPromptFileNotFound p,
                 { st with diags := st.diags ++ [msgPromptFileNotFound p] })
    | none =>
      match inline with
      | some t => (interpolate t st.vars, st)
      | none => ("", { st with diags := st.diags ++ [msgPromptNoContent] })
  let resp := env.llm finalPrompt maxTok temp
  if jd then
    match env.jsonParse (stripFence resp) with
    | some v => { st1 with vars := varSet varName v st1.vars }
    | none =>
      { st1 with vars := varSet varName (.str resp) st1.vars,
                 diags := st1.diags ++ [msgJsonDecodeErr varName] }
  else { st1 with vars := varSet varName (.str resp) st1.vars }

/-! ## The `@set` arm -/

/-- The `@set` arm after a successful regex match: a double-quoted literal
binds its contents; a `@prompt` value invokes the provider; anything else
is evaluated, a failure of one of the four caught exception classes
binds the raw expression text as a string with a warning, and any other
exception propagates. -/
def execSet (env : Env) (baseDir varName valueExpr : String) (st : St) : Res :=
  if strStartsWith valueExpr "\"" && strEndsWith valueExpr "\"" then
    .ok { st with
      vars := varSet varName (.str (String.mk ((valueExpr.data.drop 1).dropLast))) st.vars }
  else if strStartsWith valueExpr "@prompt" then
    .ok (execPromptSet env baseDir varName valueExpr st)
  else
    match pyEvalStr valueExpr st.vars with
    | .ok v => .ok { st with vars := varSet varName v st.vars }
    | .error e =>
      if caughtBySet e then
        .ok { st with vars := varSet varName (.str valueExpr) st.vars,
                      diags := st.diags ++ [msgSetEvalWarn valueExpr varName e] }
      else .error (.pyExc e, st)

/-! ## The executor (`_parse_and_execute_block`) -/

/-- Which values `@foreach` accepts: `list`, `dict`, `str`. -/
def isIterable : Value → Bool
  | .list _ => true
  | .dict _ => true
  | .str _ => true
  | _ => false

/-- What `for item in collection` yields: list elements, dict keys, or the
characters of a string as one-character strings. -/
def iterElems : Value → List Value
  | .list xs => xs.toList
  | .dict ps => ps.keys
  | .str s => s.data.map (fun c => Value.str c.toString)
  | _ => []

/-- The `for item in collection:` loop of `@foreach`: bind the loop
variable and execute the body block, once per element in order.  `recur`
executes a block of lines (the recursive `_parse_and_execute_block`
call). -/
def execItems (recur : List String → Nat → String → St → Res)
    (blk : List String) (baseDir v : String) : List Value → St → Res
  | [], st => .ok st
  | x :: xs, st =>
    match recur blk 0 baseDir { st with vars := varSet v x st.vars } with
    | .ok st' => execItems recur blk baseDir v xs st'
    | .error e => .error e

/-- One iteration of the `while i < len(lines)` dispatch, for a line index
in range.  `recur lines j st` is the continuation — both the loop
continuing at `j` and the recursive `_parse_and_execute_block` calls into
blocks and included files (which is where Python consumes stack depth). -/
def stepLine (env : Env) (recur : List String → Nat → String → St → Res)
    (lines : List String) (i : Nat) (baseDir : String) (st : St) : Res :=
  let line := lines.getD i ""
  let stripped := pyStrip line
  if stripped = "" then recur lines (i + 1) baseDir st
  else
    let il := interpolate stripped st.vars
    if strStartsWith il "@set" then
      match parseSet il with
      | some (n, v) =>
        match execSet env baseDir n v st with
        | .ok st' => recur lines (i + 1) baseDir st'
        | .error e => .error e
      | none =>
        recur lines (i + 1) baseDir { st with diags := st.diags ++ [msgMalformedSet il] }
    else if strStartsWith il "@log" then
      recur lines (i + 1) baseDir { st with buffer := st.buffer ++ [logContent il] }
    else if strStartsWith il "@include" then
      match parseInclude il with
      | some rel =>
        let p := pathJoin baseDir rel
        match fsGet p env.fs with
        | some incLines =>
          match recur incLines 0 (dirname p) st with
          | .ok st' => recur lines (i + 1) baseDir st'
          | .error (e, stE) =>
            recur lines (i + 1) baseDir
              { stE with diags := stE.diags ++ [msgIncludeProc p e] }
        | none =>
          recur lines (i + 1) baseDir
            { st with diags := st.diags ++ [msgIncludeNotFound p] }
      | none =>
        recur lines (i + 1) baseDir { st with diags := st.diags ++ [msgMalformedInclude il] }
    else if strStartsWith il "@if" then
      let cond := pyStrip (String.mk (il.data.drop 3))
      let (b, ds) := evaluateCondition cond st.vars
      let st1 := { st with diags := st.diags ++ ds }
      if b then
        let (blk, next) := getBlockLines lines (i + 1) ["@else", "@elseif", "@endif"]
        match recur blk 0 baseDir st1 with
        | .ok st2 => recur lines next baseDir st2
        | .error e => .error e
      else
        match skipToDirective lines (i + 1) ["@else", "@elseif", "@endif"] with
        | some idx => recur lines idx baseDir st1
        | none => .ok st1
    else if strStartsWith il "@elseif" then
      let cond := pyStrip (String.mk (il.data.drop 7))
      let (b, ds) := evaluateCondition cond st.vars
      let st1 := { st with diags := st.diags ++ ds }
      if b then
        let (blk, next) := getBlockLines lines (i + 1) ["@else", "@endif"]
        match recur blk 0 baseDir st1 with
        | .ok st2 => recur lines next baseDir st2
        | .error e => .error e
      else
        match skipToDirective lines (i + 1) ["@else", "@endif"] with
        | some idx => recur lines idx baseDir st1
        | none => .ok st1
    else if strStartsWith il "@else" then
      let (blk, next) := getBlockLines lines (i + 1) ["@endif"]
      match recur blk 0 baseDir st with
      | .ok st2 => recur lines next baseDir st2
      | .error e => .error e
    else if strStartsWith il "@endif" then recur lines (i + 1) baseDir st
    else if strStartsWith il "@foreach" then
      match parseForeach il with
      | some (v, collExpr) =>
        match pyEvalStr collExpr st.vars with
        | .error e =>
          let (_, next) := getBlockLines lines (i + 1) ["@endforeach"]
          recur lines next baseDir
            { st with diags := st.diags ++ [msgForeachEvalErr collExpr (.pyExc e)] }
        | .ok coll =>
          if isIterable coll then
            let (blk, next) := getBlockLines lines (i + 1) ["@endforeach"]
            match execItems recur blk baseDir v (iterElems coll) st with
            | .ok st2 => recur lines next baseDir st2
            | .error (e, stE) =>
              let (_, next2) := getBlockLines lines (i + 1) ["@endforeach"]
              recur lines next2 baseDir
                { stE with diags := stE.diags ++ [msgForeachEvalErr collExpr e] }
          else
            let (_, next) := getBlockLines lines (i + 1) ["@endforeach"]
            recur lines next baseDir
              { st with diags := st.diags ++ [msgForeachNotIterable collExpr coll] }
      | none =>
        recur lines (i + 1) baseDir { st with diags := st.diags ++ [msgMalformedForeach il] }
    else if strStartsWith il "@endforeach" then recur lines (i + 1) baseDir st
    else
      if strStartsWith stripped "@" then recur lines (i + 1) baseDir st
      else recur lines (i + 1) baseDir { st with buffer := st.buffer ++ [il] }

/-- `_parse_and_execute_block(lines, base_dir)` with an index into the
current line list.  The fuel models the interpreter's bounded execution:
every dispatched line and every recursive descent into a block or an
included file spends one unit, and exhaustion raises the modelled
`RecursionError`, which `except Exception` handlers catch like any other
exception.  An index at or past the end returns normally at any fuel. -/
def execLines (env : Env) : Nat → List String → Nat → String → St → Res
  | 0, lines, i, _, st =>
    if i < lines.length then .error (.depthLimit, st) else .ok st
  | fuel + 1, lines, i, baseDir, st =>
    if i < lines.length then
      stepLine env (fun ls j b s => execLines env fuel ls j b s) lines i baseDir st
    else .ok st

/-- The empty starting state (`self.variables = {}` and a cleared output
buffer). -/
def initSt : St := ⟨[], [], []⟩

/-- `execute(file_path)`: read the file, run it with its own directory as
base, and return the newline-joined output buffer; a missing file or an
escaping exception returns an error string instead. -/
def execute (env : Env) (fuel : Nat) (filePath : String) : String :=
  match fsGet filePath env.fs with
  | none => "Error: File '" ++ filePath ++ "' not found."
  | some lines =>
    match execLines env fuel lines 0 (dirname filePath) initSt with
    | .ok st => String.intercalate "\n" st.buffer
    | .error (e, _) => "Error during execution: " ++ rerrText e

/-- An environment with a given filesystem, the mock provider, and a JSON
decoder that always fails (no claim exercises either collaborator). -/
def mkEnv (fs : List (String × List String)) : Env :=
  { fs := fs, llm := fun _ _ _ => "mock", jsonParse := fun _ => none }

/-! ## Spec-side comparison definitions -/

mutual

/-- Following the spec's words (§4.3): the restricted expression grammar
admits literals, list/map literals, variable references, indexing,
comparisons, boolean connectives and arithmetic — and nothing else.  On
the embedded parse trees, everything except host method invocation. -/
def specRestrictedGrammar : PyExpr → Bool
  | .methodCall _ _ => false
  | .intLit _ => true
  | .strLit _ => true
  | .boolLit _ => true
  | .noneLit => true
  | .nameRef _ => true
  | .listLit es => specRestrictedGrammarList es
  | .indexOp a b => specRestrictedGrammar a && specRestrictedGrammar b
  | .cmpOp _ l r => specRestrictedGrammar l && specRestrictedGrammar r
  | .addOp l r => specRestrictedGrammar l && specRestrictedGrammar r

/-- The restricted grammar on element lists. -/
def specRestrictedGrammarList : PyExprList → Bool
  | .nil => true
  | .cons e t => specRestrictedGrammar e && specRestrictedGrammarList t

end

/-- Following the spec's words (§4.4): depth-counted block matching.  Scan
forward keeping a nesting counter, incremented on a nested opener of the
same family, decremented on the family's own terminator; stop at the first
acceptable terminator reached at depth zero; return the block strictly
between, and the index just after the terminator. -/
def specDepthBlockAux (opener closer : String) (accept : List String) :
    List String → Nat → Nat → List String × Nat
  | [], cur, _ => ([], cur)
  | l :: rest, cur, depth =>
    let t := pyStrip l
    if depth = 0 && accept.any (fun d => strStartsWith t d) then ([], cur + 1)
    else
      let depth' :=
        if strStartsWith t opener then depth + 1
        else if strStartsWith t closer && depth > 0 then depth - 1
        else depth
      let (b, n) := specDepthBlockAux opener closer accept rest (cur + 1) depth'
      (l :: b, n)

/-- Depth-counted matching from an index, as §4.4 specifies the matcher. -/
def specDepthBlock (opener closer : String) (accept : List String)
    (all : List String) (start : Nat) : List String × Nat :=
  specDepthBlockAux opener closer accept (all.drop start) start 0

/-! ## Concrete scripts used by the claims -/

/-- The spec §8 nested-if script. -/
def nestedIfScript : List String :=
  ["@if true", "@if false", "@log \"A\"", "@else", "@log \"B\"", "@endif", "@endif"]

/-- A flat if/else chain whose condition is true. -/
def bothBranchesScript : List String :=
  ["@if True", "@log \"A\"", "@else", "@log \"B\"", "@endif"]

/-- An `@include` whose target does not exist, followed by more script. -/
def missingIncludeScript : List String :=
  ["@include \"missing.sml\"", "after"]

/-- A `@foreach` over an int literal, followed by more script. -/
def badForeachScript : List String :=
  ["@foreach i in 5", "@log hi", "@endforeach", "after"]

/-- The spec §8 foreach script. -/
def foreachScript : List String :=
  ["@foreach i in [1,2,3]", "@log \x7bi\x7d", "@endforeach"]

/-- The foreach script over an empty list literal. -/
def foreachEmptyScript : List String :=
  ["@foreach i in []", "@log \x7bi\x7d", "@endforeach"]

/-- A foreach over a string (character iteration). -/
def foreachStrScript : List String :=
  ["@foreach c in \"ab\"", "@log \x7bc\x7d", "@endforeach"]

/-- A foreach over a dict variable (key iteration). -/
def foreachDictScript : List String :=
  ["@foreach k in m", "@log \x7bk\x7d", "@endforeach"]

/-- A foreach over a list held in the variable `xs`. -/
def foreachVarScript : List String :=
  ["@foreach i in xs", "@log \x7bi\x7d", "@endforeach"]

/-- The two-file include cycle A→B→A, rooted at `/d`. -/
def cycEnv : Env :=
  mkEnv [("/d/A.sml", ["@include \"B.sml\""]), ("/d/B.sml", ["@include \"A.sml\""])]

/-- The lines of the cycle file `A.sml`. -/
def cycLinesA : List String := ["@include \"B.sml\""]

/-- The lines of the cycle file `B.sml`. -/
def cycLinesB : List String := ["@include \"A.sml\""]

end StructuraML

namespace StructuraML

/-! ## General-purpose lemmas -/

/-- An index at or past the end returns the state unchanged, at any fuel:
the `while` loop's guard fails before any fuel is consumed. -/
theorem execLines_atEnd (env : Env) (fuel : Nat) (lines : List String)
    (i : Nat) (b : String) (st : St) (h : lines.length ≤ i) :
    execLines env fuel lines i b st = .ok st := by
  cases fuel <;> simp [execLines, Nat.not_lt.mpr h]

/-! ## C1 -/

/-- C1: the claim says expression evaluation exposes no host built-ins and
returns only values of the restricted grammar or a typed error.  The code
delegates to host `eval`, which accepts the condition
`"abc".upper() == "ABC"` — a host `str.upper` built-in invoked through
attribute access, outside the spec §4.3 grammar — and evaluates it
successfully to `True`.  The code, not the claim, is at fault: spec §9
calls this exact evaluation strategy a security defect to eliminate. -/
theorem C1_condition_eval_reaches_host_builtin :
    pyParse "\"abc\".upper() == \"ABC\"" =
      some (.cmpOp .ceq (.methodCall (.strLit "abc") "upper") (.strLit "ABC"))
    ∧ specRestrictedGrammar
        (.cmpOp .ceq (.methodCall (.strLit "abc") "upper") (.strLit "ABC")) = false
    ∧ evaluateCondition "\"abc\".upper() == \"ABC\"" [] = (true, []) :=
  ⟨rfl, rfl, rfl⟩

/-! ## C2 -/

/-- C2: the claim says block matching is depth-correct and that the nested
`@if` script yields exactly `["B"]`.  The matcher `_get_block_lines` keeps
no nesting counter: on a nested if it stops at the inner `@endif` (index
3) where depth-counted matching per spec §4.4 continues to index 4; and
the nested-if script renders `"B"` with its quotation marks, not `B`, so
its output is not `["B"]` either. -/
theorem C2_block_matching_not_depth_correct :
    (getBlockLines ["@if True", "@if True", "@endif", "@endif"] 1
        ["@else", "@elseif", "@endif"] = (["@if True"], 3)
      ∧ specDepthBlock "@if" "@endif" ["@else", "@elseif", "@endif"]
          ["@if True", "@if True", "@endif", "@endif"] 1 = (["@if True", "@endif"], 4)
      ∧ ((["@if True"], 3) : List String × Nat) ≠ (["@if True", "@endif"], 4))
    ∧ ∃ st : St, execLines (mkEnv []) 100 nestedIfScript 0 "/d" initSt = .ok st
        ∧ st.buffer = ["\"B\""] ∧ st.buffer ≠ ["B"] := by
  exact ⟨⟨rfl, rfl, by decide⟩, ⟨_, rfl, rfl, by decide⟩⟩

/-! ## C3 -/

/-- C3: the claim says exactly one branch of an if/else chain executes.
After executing the taken branch the code resumes immediately after the
matched terminator — which for `{@else, @elseif, @endif}` can be the
`@else` line itself — so on `@if True / @log "A" / @else / @log "B" /
@endif` both branch bodies are appended to the output. -/
theorem C3_else_branch_also_executes :
    ∃ st : St, execLines (mkEnv []) 100 bothBranchesScript 0 "/d" initSt = .ok st
      ∧ st.buffer = ["\"A\"", "\"B\""] :=
  ⟨_, rfl, rfl⟩

/-! ## C5 -/

/-- C5: the claim says a missing include target raises a fatal
IncludeNotFound error aborting the whole execution.  The code prints a
diagnostic and continues: the line after the failed include still runs and
the execution returns normally. -/
theorem C5_missing_include_not_fatal :
    ∃ st : St, execLines (mkEnv []) 100 missingIncludeScript 0 "/d" initSt = .ok st
      ∧ st.buffer = ["after"]
      ∧ st.diags = [msgIncludeNotFound "/d/missing.sml"] :=
  ⟨_, rfl, rfl, rfl⟩

/-! ## C8 -/

/-- C8 counterexample: the claim (with spec §4.5) says a wrong-category
`@foreach` collection raises a fatal directive error.  On `@foreach i in
5` execution records a diagnostic, skips the body, executes the rest of
the script and returns normally — nothing fatal. -/
theorem C8_counterexample_not_fatal :
    ∃ st : St, execLines (mkEnv []) 100 badForeachScript 0 "/d" initSt = .ok st
      ∧ st.buffer = ["after"]
      ∧ st.diags = [msgForeachNotIterable "5" (.int 5)] :=
  ⟨_, rfl, rfl, rfl⟩

/-- C8 as amended: a `@foreach` whose collection evaluates to a
non-iterable value (any int, here) is recoverable, per spec §7: a
diagnostic is recorded, the body block is skipped, and execution continues
after `@endforeach` — at every sufficient fuel. -/
theorem C8_amended_wrong_category_recoverable (n : Int) (f : Nat) :
    execLines (mkEnv []) (f + 2) ["@foreach i in xs", "@log hi", "@endforeach", "after"]
        0 "/d" ⟨[("xs", .int n)], [], []⟩
      = .ok ⟨[("xs", .int n)], ["after"], [msgForeachNotIterable "xs" (.int n)]⟩ := by
  have h : execLines (mkEnv []) (f + 2)
      ["@foreach i in xs", "@log hi", "@endforeach", "after"] 0 "/d"
      ⟨[("xs", .int n)], [], []⟩
      = execLines (mkEnv []) f ["@foreach i in xs", "@log hi", "@endforeach", "after"]
        4 "/d" ⟨[("xs", .int n)], ["after"], [msgForeachNotIterable "xs" (.int n)]⟩ := rfl
  exact h.trans (execLines_atEnd _ _ _ _ _ _ (by decide))

/-! ## C10 -/

/-- C10: a stripped line starting with `@` that matches no known directive
form is dispatched to the final branch, which appends nothing and changes
nothing (the output guard `not stripped_line.startswith('@')` fails); a
blank line is skipped before interpolation.  Either way the step is
exactly the continuation at the next line with the state untouched. -/
theorem C10_unknown_directive_and_blank_do_nothing :
    (∀ (env : Env) (recur : List String → Nat → String → St → Res)
        (lines : List String) (i : Nat) (baseDir : String) (st : St)
        (stripped il : String),
      pyStrip (lines.getD i "") = stripped →
      stripped ≠ "" →
      strStartsWith stripped "@" = true →
      interpolate stripped st.vars = il →
      strStartsWith il "@set" = false →
      strStartsWith il "@log" = false →
      strStartsWith il "@include" = false →
      strStartsWith il "@if" = false →
      strStartsWith il "@elseif" = false →
      strStartsWith il "@else" = false →
      strStartsWith il "@endif" = false →
      strStartsWith il "@foreach" = false →
      strStartsWith il "@endforeach" = false →
      stepLine env recur lines i baseDir st = recur lines (i + 1) baseDir st)
    ∧ (∀ (env : Env) (recur : List String → Nat → String → St → Res)
        (lines : List String) (i : Nat) (baseDir : String) (st : St),
      pyStrip (lines.getD i "") = "" →
      stepLine env recur lines i baseDir st = recur lines (i + 1) baseDir st) := by
  constructor
  · intro env recur lines i baseDir st stripped il
      h1 h2 h3 h4 h5 h6 h7 h8 h9 h10 h11 h12 h13
    simp only [stepLine, h1, h4, h3, h5, h6, h7, h8, h9, h10, h11, h12, h13]
    rw [if_neg h2]
    simp
  · intro env recur lines i baseDir st h
    simp only [stepLine, h]
    simp

/-- C10 witness: the unknown directive `@bogus stuff` and a
whitespace-only line each step to the plain continuation. -/
theorem C10_witness :
    stepLine (mkEnv []) (execLines (mkEnv []) 5) ["@bogus stuff"] 0 "/d" initSt
      = execLines (mkEnv []) 5 ["@bogus stuff"] 1 "/d" initSt
    ∧ stepLine (mkEnv []) (execLines (mkEnv []) 5) ["   "] 0 "/d" initSt
      = execLines (mkEnv []) 5 ["   "] 1 "/d" initSt := by
  constructor
  · exact C10_unknown_directive_and_blank_do_nothing.1 (mkEnv [])
      (execLines (mkEnv []) 5) ["@bogus stuff"] 0 "/d" initSt
      "@bogus stuff" "@bogus stuff" rfl (by decide) rfl rfl rfl rfl rfl rfl
      rfl rfl rfl rfl rfl
  · exact C10_unknown_directive_and_blank_do_nothing.2 (mkEnv [])
      (execLines (mkEnv []) 5) ["   "] 0 "/d" initSt rfl

/-! ## C9 -/

/-- C9: a `@set` whose value is neither a quoted literal nor a `@prompt`
invocation, and whose evaluation raises one of the four caught exception
classes (NameError, SyntaxError, TypeError, IndexError), always binds the
variable to the raw expression text as a string and continues — stated
generally over the `@set` arm, and end-to-end for one expression of each
failure kind. -/
theorem C9_failed_set_binds_raw_text :
    (∀ (env : Env) (baseDir varName valueExpr : String) (st : St) (e : EvalError),
      (strStartsWith valueExpr "\"" && strEndsWith valueExpr "\"") = false →
      strStartsWith valueExpr "@prompt" = false →
      pyEvalStr valueExpr st.vars = .error e →
      caughtBySet e = true →
      execSet env baseDir varName valueExpr st =
        .ok { st with vars := varSet varName (.str valueExpr) st.vars,
                      diags := st.diags ++ [msgSetEvalWarn valueExpr varName e] })
    ∧ execLines (mkEnv []) 100 ["@set x = hello world"] 0 "/d" initSt
        = .ok ⟨[("x", .str "hello world")], [],
               [msgSetEvalWarn "hello world" "x" .syntaxError]⟩
    ∧ execLines (mkEnv []) 100 ["@set x = undefinedname"] 0 "/d" initSt
        = .ok ⟨[("x", .str "undefinedname")], [],
               [msgSetEvalWarn "undefinedname" "x" (.nameError "undefinedname")]⟩
    ∧ execLines (mkEnv []) 100 ["@set x = 1 + \"a\""] 0 "/d" initSt
        = .ok ⟨[("x", .str "1 + \"a\"")], [],
               [msgSetEvalWarn "1 + \"a\"" "x" .typeError]⟩
    ∧ execLines (mkEnv []) 100 ["@set x = [1][5]"] 0 "/d" initSt
        = .ok ⟨[("x", .str "[1][5]")], [],
               [msgSetEvalWarn "[1][5]" "x" .indexError]⟩ := by
  refine ⟨?_, rfl, rfl, rfl, rfl⟩
  intro env baseDir varName valueExpr st e hq hp he hc
  simp only [execSet, hq, hp, he, hc, Bool.false_eq_true, if_false, if_true]

/-- C9 witness: `@set x = hello world` (a SyntaxError) binds `x` to the
raw text `hello world`. -/
theorem C9_witness :
    execSet (mkEnv []) "/d" "x" "hello world" initSt
      = .ok ⟨[("x", .str "hello world")], [],
             [msgSetEvalWarn "hello world" "x" .syntaxError]⟩ :=
  C9_failed_set_binds_raw_text.1 (mkEnv []) "/d" "x" "hello world" initSt
    .syntaxError rfl rfl rfl rfl

/-! ## C7 -/

/-- Scanning a candidate span: brace-free characters accumulate until the
closing brace, where the whole span is replaced. -/
theorem interpAux_span (vars : Vars) (rest : List Char) :
    ∀ (e acc : List Char),
      (∀ c ∈ e, c ≠ lbrace ∧ c ≠ rbrace) →
      interpAux vars (e ++ rbrace :: rest) (some acc) =
        if e.reverse ++ acc = [] then "\x7b\x7d" ++ interpAux vars rest none
        else spanRepl vars ((e.reverse ++ acc).reverse) ++ interpAux vars rest none := by
  intro e
  induction e with
  | nil =>
    intro acc _
    simp [interpAux]
  | cons c e ih =>
    intro acc h
    have hc := h c (List.mem_cons_self c e)
    have hrest : ∀ d ∈ e, d ≠ lbrace ∧ d ≠ rbrace :=
      fun d hd => h d (List.mem_cons_of_mem c hd)
    have step : interpAux vars ((c :: e) ++ rbrace :: rest) (some acc) =
        interpAux vars (e ++ rbrace :: rest) (some (c :: acc)) := by
      simp [interpAux, hc.1, hc.2]
    rw [step, ih (c :: acc) hrest]
    have harr : e.reverse ++ (c :: acc) = (c :: e).reverse ++ acc := by
      simp
    rw [harr]

/-- C7: an interpolation span whose expression fails to evaluate renders
the `{UNDEFINED_OR_INVALID_VAR:...}` placeholder naming the expression; a
literal line is interpolated, appended, and execution simply continues; a
condition whose evaluation fails is `False` plus one recorded diagnostic;
and end-to-end, `{unknown}` renders a placeholder without aborting while
`@if unknown` falls through to the rest of the script. -/
theorem C7_undefined_access_recoverable :
    (∀ (e : String) (vars : Vars) (err : EvalError),
      e.data ≠ [] →
      (∀ c ∈ e.data, c ≠ lbrace ∧ c ≠ rbrace) →
      pyEvalStr e vars = .error err →
      interpolate ("\x7b" ++ e ++ "\x7d") vars =
        "\x7bUNDEFINED_OR_INVALID_VAR:" ++ e ++ "\x7d")
    ∧ (∀ (cond : String) (vars : Vars) (err : EvalError),
      pyEvalStr cond vars = .error err →
      evaluateCondition cond vars = (false, [msgCondErr cond err]))
    ∧ (∀ (env : Env) (recur : List String → Nat → String → St → Res)
        (lines : List String) (i : Nat) (baseDir : String) (st : St)
        (stripped il : String),
      pyStrip (lines.getD i "") = stripped →
      stripped ≠ "" →
      strStartsWith stripped "@" = false →
      interpolate stripped st.vars = il →
      strStartsWith il "@set" = false →
      strStartsWith il "@log" = false →
      strStartsWith il "@include" = false →
      strStartsWith il "@if" = false →
      strStartsWith il "@elseif" = false →
      strStartsWith il "@else" = false →
      strStartsWith il "@endif" = false →
      strStartsWith il "@foreach" = false →
      strStartsWith il "@endforeach" = false →
      stepLine env recur lines i baseDir st =
        recur lines (i + 1) baseDir { st with buffer := st.buffer ++ [il] })
    ∧ execLines (mkEnv []) 100 ["hello \x7bunknown\x7d!"] 0 "/d" initSt
        = .ok ⟨[], ["hello \x7bUNDEFINED_OR_INVALID_VAR:unknown\x7d!"], []⟩
    ∧ execLines (mkEnv []) 100 ["@if unknown", "@log \"A\"", "@endif", "after"] 0 "/d" initSt
        = .ok ⟨[], ["after"], [msgCondErr "unknown" (.nameError "unknown")]⟩ := by
  refine ⟨?_, ?_, ?_, rfl, rfl⟩
  · intro e vars err hne h he
    have hdata : ("\x7b" ++ e ++ "\x7d").data = lbrace :: (e.data ++ rbrace :: []) := by
      show (lbrace :: e.data) ++ (rbrace :: []) = _
      simp
    show interpAux vars (("\x7b" ++ e ++ "\x7d").data) none = _
    rw [hdata]
    have step : interpAux vars (lbrace :: (e.data ++ rbrace :: [])) none =
        interpAux vars (e.data ++ rbrace :: []) (some []) := by
      simp [interpAux]
    rw [step, interpAux_span vars [] e.data [] h]
    rw [if_neg (by simpa using hne)]
    have hrepl : spanRepl vars ((e.data.reverse ++ []).reverse) =
        "\x7bUNDEFINED_OR_INVALID_VAR:" ++ e ++ "\x7d" := by
      have : (e.data.reverse ++ []).reverse = e.data := by simp
      rw [this]
      show (match pyEvalStr (String.mk e.data) vars with
        | .ok v => pyStr v
        | .error _ => "\x7bUNDEFINED_OR_INVALID_VAR:" ++ String.mk e.data ++ "\x7d") = _
      rw [show String.mk e.data = e from rfl, he]
    rw [hrepl]
    show ("\x7bUNDEFINED_OR_INVALID_VAR:" ++ e ++ "\x7d") ++ "" = _
    show String.mk ((("\x7bUNDEFINED_OR_INVALID_VAR:" ++ e ++ "\x7d") : String).data ++ []) = _
    rw [List.append_nil]
  · intro cond vars err h
    simp [evaluateCondition, h]
  · intro env recur lines i baseDir st stripped il
      h1 h2 h3 h4 h5 h6 h7 h8 h9 h10 h11 h12 h13
    simp only [stepLine, h1, h4, h3, h5, h6, h7, h8, h9, h10, h11, h12, h13]
    rw [if_neg h2]
    simp

/-- Setting a key makes it the looked-up value. -/
theorem varGet_varSet (k : String) (v : Value) (m : Vars) :
    varGet k (varSet k v m) = some v := by
  induction m with
  | nil => simp [varSet, varGet]
  | cons p t ih =>
    obtain ⟨k', v'⟩ := p
    by_cases hk : k' = k <;> simp [varSet, varGet, hk, ih]

/-- Round trip between `List Value` and the nested list type. -/
theorem toList_ofList (l : List Value) : (ValueList.ofList l).toList = l := by
  induction l with
  | nil => rfl
  | cons v t ih => simp [ValueList.ofList, ValueList.toList, ih]

/-- Executing the one-line body `@log {i}` with `i` bound to `v` appends
`str(v)` to the output (for renderings without leading whitespace, which
the `@log` regex would eat) and changes nothing else. -/
theorem execLog_one (f : Nat) (baseDir : String) (σ : St) (v : Value)
    (h : varGet "i" σ.vars = some v)
    (hws : skipWs (pyStr v).data = (pyStr v).data) :
    execLines (mkEnv []) (f + 1) ["@log \x7bi\x7d"] 0 baseDir σ
      = .ok { σ with buffer := σ.buffer ++ [pyStr v] } := by
  have hspan : spanRepl σ.vars ['i'] = pyStr v := by
    have hp : pyParse "i" = some (.nameRef "i") := rfl
    simp only [spanRepl]
    rw [show String.mk ['i'] = "i" from rfl]
    simp [pyEvalStr, hp, pyEval, h]
  have hinterp : interpolate "@log \x7bi\x7d" σ.vars = "@log " ++ pyStr v := by
    show interpAux σ.vars ("@log \x7bi\x7d".data) none = _
    simp [interpAux, hspan, lbrace, rbrace]
    rfl
  have h1 : execLines (mkEnv []) (f + 1) ["@log \x7bi\x7d"] 0 baseDir σ
      = execLines (mkEnv []) f ["@log \x7bi\x7d"] 1 baseDir
          { σ with buffer := σ.buffer ++
              [logContent (interpolate "@log \x7bi\x7d" σ.vars)] } := rfl
  have h2 : logContent ("@log " ++ pyStr v) = pyStr v := by
    show String.mk (skipWs ((("@log " ++ pyStr v) : String).data.drop 4)) = _
    rw [show (("@log " ++ pyStr v) : String).data
        = "@log ".data ++ (pyStr v).data from rfl]
    show String.mk (skipWs (' ' :: (pyStr v).data)) = _
    show String.mk ((pyStr v).data.dropWhile Char.isWhitespace) = _
    rw [show (pyStr v).data.dropWhile Char.isWhitespace
        = skipWs (pyStr v).data from rfl, hws]
  rw [h1, hinterp, h2]
  exact execLines_atEnd _ _ _ _ _ _ (by decide)

/-- The `@foreach` item loop over the body `@log {i}`: one `str(item)`
appended per element in order, the loop variable rebound each time. -/
theorem execItems_log (f : Nat) (baseDir : String) :
    ∀ (vs : List Value) (σ : St),
      (∀ v ∈ vs, skipWs (pyStr v).data = (pyStr v).data) →
      execItems (fun ls j b s => execLines (mkEnv []) (f + 1) ls j b s)
          ["@log \x7bi\x7d"] baseDir "i" vs σ
        = .ok { σ with vars := vs.foldl (fun m v => varSet "i" v m) σ.vars,
                       buffer := σ.buffer ++ vs.map pyStr } := by
  intro vs
  induction vs with
  | nil =>
    intro σ _
    simp [execItems]
  | cons v vs ih =>
    intro σ hws
    have hv := hws v (List.mem_cons_self v vs)
    have hbody := execLog_one f baseDir { σ with vars := varSet "i" v σ.vars } v
      (varGet_varSet "i" v σ.vars) hv
    show (match execLines (mkEnv []) (f + 1) ["@log \x7bi\x7d"] 0 baseDir
        { σ with vars := varSet "i" v σ.vars } with
      | .ok st' => execItems (fun ls j b s => execLines (mkEnv []) (f + 1) ls j b s)
          ["@log \x7bi\x7d"] baseDir "i" vs st'
      | .error e => .error e) = _
    rw [hbody]
    show execItems (fun ls j b s => execLines (mkEnv []) (f + 1) ls j b s)
        ["@log \x7bi\x7d"] baseDir "i" vs
        { σ with vars := varSet "i" v σ.vars, buffer := σ.buffer ++ [pyStr v] } = _
    rw [ih _ (fun u hu => hws u (List.mem_cons_of_mem v hu))]
    simp [List.append_assoc]

/-- C7 witness: the undefined name `unknown` renders its placeholder and
makes a condition false with one diagnostic. -/
theorem C7_witness :
    interpolate ("\x7b" ++ "unknown" ++ "\x7d") [] =
      "\x7bUNDEFINED_OR_INVALID_VAR:" ++ "unknown" ++ "\x7d"
    ∧ evaluateCondition "unknown" [] =
      (false, [msgCondErr "unknown" (.nameError "unknown")]) :=
  ⟨C7_undefined_access_recoverable.1 "unknown" [] (.nameError "unknown")
      (by decide) (by decide) rfl,
   C7_undefined_access_recoverable.2.1 "unknown" [] (.nameError "unknown") rfl⟩

/-! ## C6 -/

/-- C6: `@foreach` over a list binds the loop variable to each element in
order and executes the (once-matched) body once per element; after the
loop the variable holds the last binding; zero elements run the body zero
times without error; and concretely, the spec §8 script logs
`["1","2","3"]` leaving `i == 3`, a string iterates its characters, and a
dict iterates its keys.  The general part is stated for the body
`@log {i}` over any element values whose rendering carries no leading
whitespace (the `@log` regex strips leading whitespace). -/
theorem C6_foreach_iterates_in_order :
    (∀ (vs : List Value) (f : Nat) (st : St),
      varGet "xs" st.vars = some (.list (ValueList.ofList vs)) →
      (∀ v ∈ vs, skipWs (pyStr v).data = (pyStr v).data) →
      execLines (mkEnv []) (f + 2) foreachVarScript 0 "/d" st =
        .ok { st with vars := vs.foldl (fun m v => varSet "i" v m) st.vars,
                      buffer := st.buffer ++ vs.map pyStr })
    ∧ (∀ (m : Vars) (v : Value) (vs : List Value),
      varGet "i" ((v :: vs).foldl (fun m' u => varSet "i" u m') m)
        = some (vs.getLastD v))
    ∧ execLines (mkEnv []) 100 foreachScript 0 "/d" initSt
        = .ok ⟨[("i", .int 3)], ["1", "2", "3"], []⟩
    ∧ execLines (mkEnv []) 100 foreachEmptyScript 0 "/d" initSt = .ok ⟨[], [], []⟩
    ∧ execLines (mkEnv []) 100 foreachStrScript 0 "/d" initSt
        = .ok ⟨[("c", .str "b")], ["a", "b"], []⟩
    ∧ execLines (mkEnv []) 100 foreachDictScript 0 "/d"
          ⟨[("m", .dict (.cons (.str "a") (.int 1) (.cons (.str "b") (.int 2) .nil)))], [], []⟩
        = .ok ⟨[("m", .dict (.cons (.str "a") (.int 1) (.cons (.str "b") (.int 2) .nil))),
                ("k", .str "b")], ["a", "b"], []⟩ := by
  refine ⟨?_, ?_, rfl, rfl, rfl, rfl⟩
  · intro vs f st h hws
    have hp : pyParse "xs" = some (.nameRef "xs") := rfl
    have heval : pyEvalStr "xs" st.vars = .ok (.list (ValueList.ofList vs)) := by
      simp [pyEvalStr, hp, pyEval, h]
    have h1 : execLines (mkEnv []) (f + 2) foreachVarScript 0 "/d" st =
        (match pyEvalStr "xs" st.vars with
         | .error e => execLines (mkEnv []) (f + 1) foreachVarScript 3 "/d"
             { st with diags := st.diags ++ [msgForeachEvalErr "xs" (.pyExc e)] }
         | .ok coll =>
           if isIterable coll then
             match execItems (fun ls j b s => execLines (mkEnv []) (f + 1) ls j b s)
                 ["@log \x7bi\x7d"] "/d" "i" (iterElems coll) st with
             | .ok st2 => execLines (mkEnv []) (f + 1) foreachVarScript 3 "/d" st2
             | .error (e, stE) => execLines (mkEnv []) (f + 1) foreachVarScript 3 "/d"
                 { stE with diags := stE.diags ++ [msgForeachEvalErr "xs" e] }
           else execLines (mkEnv []) (f + 1) foreachVarScript 3 "/d"
               { st with diags := st.diags ++ [msgForeachNotIterable "xs" coll] }) := rfl
    rw [h1, heval]
    show (match execItems (fun ls j b s => execLines (mkEnv []) (f + 1) ls j b s)
        ["@log \x7bi\x7d"] "/d" "i" ((ValueList.ofList vs).toList) st with
      | .ok st2 => execLines (mkEnv []) (f + 1) foreachVarScript 3 "/d" st2
      | .error (e, stE) => execLines (mkEnv []) (f + 1) foreachVarScript 3 "/d"
          { stE with diags := stE.diags ++ [msgForeachEvalErr "xs" e] }) = _
    rw [toList_ofList, execItems_log f "/d" vs st hws]
    show execLines (mkEnv []) (f + 1) foreachVarScript 3 "/d" _ = _
    exact execLines_atEnd _ _ _ _ _ _ (by decide)
  · intro m v vs
    induction vs generalizing v m with
    | nil => simpa using varGet_varSet "i" v m
    | cons u vs ih =>
      show varGet "i" ((u :: vs).foldl (fun m' w => varSet "i" w m') (varSet "i" v m)) = _
      rw [ih (varSet "i" v m) u]
      rw [List.getLastD_cons]

/-- C6 witness: the general loop statement applied to the value list
`[1, 2, 3]` held in `xs`. -/
theorem C6_witness :
    execLines (mkEnv []) 12 foreachVarScript 0 "/d"
        ⟨[("xs", .list (ValueList.ofList [.int 1, .int 2, .int 3]))], [], []⟩
      = .ok { vars := [Value.int 1, .int 2, .int 3].foldl (fun m v => varSet "i" v m)
                [("xs", .list (ValueList.ofList [.int 1, .int 2, .int 3]))],
              buffer := [] ++ [Value.int 1, .int 2, .int 3].map pyStr,
              diags := [] } :=
  C6_foreach_iterates_in_order.1 [.int 1, .int 2, .int 3] 10
    ⟨[("xs", .list (ValueList.ofList [.int 1, .int 2, .int 3]))], [], []⟩
    rfl (by decide)

/-! ## C4 -/

/-- Running either cycle file at any fuel ends with the run returning
normally after the include handler swallows the modelled recursion-depth
overflow — one processing-error diagnostic naming one of the two files,
never a cycle error. -/
theorem cyc_run (f : Nat) : ∀ st : St,
    (∃ d, (d = msgIncludeProc "/d/A.sml" .depthLimit
            ∨ d = msgIncludeProc "/d/B.sml" .depthLimit)
      ∧ execLines cycEnv (f + 1) cycLinesA 0 "/d" st
          = .ok { st with diags := st.diags ++ [d] })
    ∧ (∃ d, (d = msgIncludeProc "/d/A.sml" .depthLimit
            ∨ d = msgIncludeProc "/d/B.sml" .depthLimit)
      ∧ execLines cycEnv (f + 1) cycLinesB 0 "/d" st
          = .ok { st with diags := st.diags ++ [d] }) := by
  induction f with
  | zero =>
    intro st
    exact ⟨⟨msgIncludeProc "/d/B.sml" .depthLimit, Or.inr rfl, rfl⟩,
           ⟨msgIncludeProc "/d/A.sml" .depthLimit, Or.inl rfl, rfl⟩⟩
  | succ f ih =>
    intro st
    constructor
    · obtain ⟨d, hd, hB⟩ := (ih st).2
      refine ⟨d, hd, ?_⟩
      have h1 : execLines cycEnv (f + 2) cycLinesA 0 "/d" st =
          (match execLines cycEnv (f + 1) cycLinesB 0 "/d" st with
           | .ok st' => execLines cycEnv (f + 1) cycLinesA 1 "/d" st'
           | .error (e, stE) => execLines cycEnv (f + 1) cycLinesA 1 "/d"
               { stE with diags := stE.diags ++ [msgIncludeProc "/d/B.sml" e] }) := rfl
      rw [h1, hB]
      exact execLines_atEnd _ _ _ _ _ _ (by decide)
    · obtain ⟨d, hd, hA⟩ := (ih st).1
      refine ⟨d, hd, ?_⟩
      have h1 : execLines cycEnv (f + 2) cycLinesB 0 "/d" st =
          (match execLines cycEnv (f + 1) cycLinesA 0 "/d" st with
           | .ok st' => execLines cycEnv (f + 1) cycLinesB 1 "/d" st'
           | .error (e, stE) => execLines cycEnv (f + 1) cycLinesB 1 "/d"
               { stE with diags := stE.diags ++ [msgIncludeProc "/d/A.sml" e] }) := rfl
      rw [h1, hA]
      exact execLines_atEnd _ _ _ _ _ _ (by decide)

/-- C4: the claim says an active-inclusion stack makes the cycle A→B→A a
deterministic fatal include-cycle error with no unbounded recursion or
depth overflow.  The code keeps no such stack: at every fuel, execution of
the cycle descends until the modelled recursion limit overflows, and the
include site's `except Exception` swallows the overflow as an ordinary
include-processing diagnostic — the run returns normally with empty output
and no cycle-specific error ever arises.  No fuel completes the cycle
without overflowing: the recursion is unbounded. -/
theorem C4_include_cycle_overflows_undetected (f : Nat) :
    (∀ st : St,
      ∃ d, (d = msgIncludeProc "/d/A.sml" .depthLimit
              ∨ d = msgIncludeProc "/d/B.sml" .depthLimit)
        ∧ execLines cycEnv (f + 1) cycLinesA 0 "/d" st
            = .ok { st with diags := st.diags ++ [d] })
    ∧ execute cycEnv (f + 1) "/d/A.sml" = "" := by
  refine ⟨fun st => (cyc_run f st).1, ?_⟩
  obtain ⟨d, _, h⟩ := (cyc_run f initSt).1
  have h1 : execute cycEnv (f + 1) "/d/A.sml" =
      (match execLines cycEnv (f + 1) cycLinesA 0 "/d" initSt with
       | .ok st => String.intercalate "\n" st.buffer
       | .error (e, _) => "Error during execution: " ++ rerrText e) := rfl
  rw [h1, h]
  rfl

end StructuraML
